import Mathlib

/-!
Verification development for the automated retis collection orchestrator
(`arc.py`): a shallow embedding of the Kubernetes debug-pod session core
(`KubernetesDebugPodManager`), the base64 file-transfer codec, the systemd
status interpreter, and the fleet orchestration loops, together with proofs
of the specified properties.

Conventions of the embedding:
- `self.active_pods` (a Python dict from node name to pod name) is an
  association list `ActivePods` with unique keys, accessed through
  `podsGet` / `podsSet` / `podsDel`.
- Interactions with the Kubernetes control plane are driven by outcome
  oracles (`CreateOutcome`, `DeleteOutcome`, `ExecOutcome`, ...): each
  constructor names one behavior the environment can exhibit at that call
  site (success, API exception, timeout, ...).  Python exceptions that a
  function lets escape are returned as `Except.error`; exceptions the
  function catches are folded into its return value, exactly as the
  `try/except` structure of the source dictates.
- Every function also returns the trace of calls it performed
  (`List Ev`), used to state the release and dry-run purity properties.
-/

set_option maxHeartbeats 1000000

namespace Arc

/-! ### Core data model: the active-pod registry -/

/-- Model of `self.active_pods`: node name to debug pod name. -/
abbrev ActivePods := List (String × String)

/-- Dictionary lookup, `self.active_pods.get(node_name)`. -/
def podsGet (m : ActivePods) (k : String) : Option String :=
  match m with
  | [] => none
  | (k₂, v) :: rest => if k₂ = k then some v else podsGet rest k

/-- Dictionary assignment, `self.active_pods[node_name] = pod_name`. -/
def podsSet (m : ActivePods) (k v : String) : ActivePods :=
  (k, v) :: m.filter (fun p => !(p.1 == k))

/-- Dictionary removal, `del self.active_pods[node_name]`. -/
def podsDel (m : ActivePods) (k : String) : ActivePods :=
  m.filter (fun p => !(p.1 == k))

/-! ### Outcome oracles for control-plane interactions -/

/-- Behavior of one provisioning attempt in `create_debug_pod`: the
`create_namespaced_pod` call raises, the pod ends in a terminal phase,
the readiness poll times out, or the pod becomes running and ready. -/
inductive CreateOutcome
  | apiError (msg : String)
  | terminalPhase (phase : String)
  | timedOut
  | ready
deriving DecidableEq

/-- Behavior of the `delete_namespaced_pod` call in `delete_debug_pod`:
success, 404 `ApiException`, other `ApiException`, or other exception. -/
inductive DeleteOutcome
  | ok
  | notFound
  | apiError (msg : String)
  | exc (msg : String)
deriving DecidableEq

/-- Behavior of the `stream(connect_get_namespaced_pod_exec, ...)` call in
`execute_command`: it returns the combined output, or raises during channel
setup, or raises surfacing a remote non-zero exit, or raises on timeout. -/
inductive ExecOutcome
  | output (s : String)
  | setupFailure (msg : String)
  | nonZeroExit (msg : String)
  | timedOut (msg : String)
deriving DecidableEq

/-- Trace events: entries into the manager's create/delete methods, and the
actual control-plane calls (`create_namespaced_pod`, `delete_namespaced_pod`,
`connect_get_namespaced_pod_exec`). -/
inductive Ev
  | createDebugPodCall (node : String)
  | apiCreatePod (pod : String)
  | deleteDebugPodCall (node : String)
  | apiDeletePod (pod : String)
  | apiExecPod (pod : String)
deriving DecidableEq

/-- Predicate selecting entries into `delete_debug_pod`. -/
def isDeleteCall : Ev → Bool
  | .deleteDebugPodCall _ => true
  | _ => false

/-- Predicate selecting entries into `create_debug_pod`. -/
def isCreateCall : Ev → Bool
  | .createDebugPodCall _ => true
  | _ => false

/-- Predicate selecting calls to the control-plane client's mutating
capabilities (`create_namespaced_pod`, `delete_namespaced_pod`,
`connect_get_namespaced_pod_exec`). -/
def isMutatingApiCall : Ev → Bool
  | .apiCreatePod _ => true
  | .apiDeletePod _ => true
  | .apiExecPod _ => true
  | _ => false

/-- Number of trace events satisfying `p`. -/
def countEv (p : Ev → Bool) (evs : List Ev) : Nat :=
  (evs.filter p).length

/-! ### Pod naming -/

/-- Decimal digit character, `str()` rendering of one digit. -/
def decDigitChar (d : Nat) : Char := Char.ofNat (48 + d)

/-- Decimal rendering of a natural number, the embedding of the Python
f-string interpolation of `int(time.time())`. -/
def decChars (n : Nat) : List Char :=
  if _h : n < 10 then [decDigitChar n]
  else decChars (n / 10) ++ [decDigitChar (n % 10)]
termination_by n
decreasing_by exact Nat.div_lt_self (by omega) (by omega)

/-- The embedding of `node_name.replace('.', '-')`. -/
def sanitizeNode (node : String) : List Char :=
  node.toList.map (fun c => if c = '.' then '-' else c)

/-- Pod name generation from `create_debug_pod`:
`f"debug-{node_name.replace('.', '-')}-{int(time.time())}"`.
`now` is the whole-second clock reading `int(time.time())`. -/
def genPodName (node : String) (now : Nat) : String :=
  String.mk ("debug-".toList ++ sanitizeNode node ++ "-".toList ++ decChars now)

/-! ### Manager methods -/

/-- Message of the exception `execute_command`, `copy_file_to_pod` and
`copy_file_from_pod` raise when the node has no active debug pod. -/
def noPodMsg (node : String) : String :=
  "No active debug pod found for node " ++ node

/-- Message of the wrapping exception raised when `create_debug_pod` fails. -/
def createFailMsg (node msg : String) : String :=
  "Failed to create debug pod on node " ++ node ++ ": " ++ msg

/-- Embedding of `delete_debug_pod` after the pod name has been resolved:
the `try: delete_namespaced_pod ... except` block.  On success the pod is
removed from `active_pods` when the registry still maps the node to this
pod; a 404 is treated as already deleted (success); any other failure is
caught and reported as `false`.  The method never raises, so its result
type is a plain `Bool`. -/
def deleteResolved (st : ActivePods) (node pod : String) (out : DeleteOutcome) :
    Bool × ActivePods × List Ev :=
  match out with
  | .ok =>
      let st₂ := if podsGet st node = some pod then podsDel st node else st
      (true, st₂, [Ev.deleteDebugPodCall node, Ev.apiDeletePod pod])
  | .notFound => (true, st, [Ev.deleteDebugPodCall node, Ev.apiDeletePod pod])
  | .apiError _ => (false, st, [Ev.deleteDebugPodCall node, Ev.apiDeletePod pod])
  | .exc _ => (false, st, [Ev.deleteDebugPodCall node, Ev.apiDeletePod pod])

/-- Embedding of `KubernetesDebugPodManager.delete_debug_pod`.  When no pod
name is supplied it is looked up in `active_pods`; a node with no active
pod returns success immediately, without any control-plane call. -/
def delete_debug_pod (st : ActivePods) (node : String) (podName? : Option String)
    (out : DeleteOutcome) : Bool × ActivePods × List Ev :=
  match podName? with
  | none =>
    match podsGet st node with
    | none => (true, st, [Ev.deleteDebugPodCall node])
    | some pod => deleteResolved st node pod out
  | some pod => deleteResolved st node pod out

/-- Embedding of `KubernetesDebugPodManager.create_debug_pod`.  The pod name
is generated from the node name and the clock second `now`.  On the `ready`
outcome the pod is recorded in `active_pods` and its name returned.  On
every failure outcome the `except` block calls `delete_debug_pod` with the
explicit pod name (best-effort teardown) and then re-raises a wrapping
exception, which the embedding returns as `Except.error`. -/
def create_debug_pod (st : ActivePods) (node : String) (now : Nat)
    (cout : CreateOutcome) (dout : DeleteOutcome) :
    Except String String × ActivePods × List Ev :=
  let pod := genPodName node now
  match cout with
  | .ready =>
      (Except.ok pod, podsSet st node pod,
        [Ev.createDebugPodCall node, Ev.apiCreatePod pod])
  | .apiError msg =>
      let d := deleteResolved st node pod dout
      (Except.error (createFailMsg node msg), d.2.1,
        Ev.createDebugPodCall node :: Ev.apiCreatePod pod :: d.2.2)
  | .terminalPhase phase =>
      let d := deleteResolved st node pod dout
      (Except.error
          (createFailMsg node ("Pod " ++ pod ++ " ended unexpectedly in phase: " ++ phase)),
        d.2.1,
        Ev.createDebugPodCall node :: Ev.apiCreatePod pod :: d.2.2)
  | .timedOut =>
      let d := deleteResolved st node pod dout
      (Except.error
          (createFailMsg node ("Timeout waiting for debug pod " ++ pod ++ " to become ready")),
        d.2.1,
        Ev.createDebugPodCall node :: Ev.apiCreatePod pod :: d.2.2)

/-- Message prefix of the result `execute_command` returns when the stream
call raises. -/
def cmdFailMsg (msg : String) : String := "Command execution failed: " ++ msg

/-- Embedding of `KubernetesDebugPodManager.execute_command`.  A node with
no active pod raises (`Except.error`).  Otherwise the stream call is made:
if it returns, the method returns `(true, output, "")`; every exception
from the channel (setup failure, surfaced non-zero exit, timeout) is caught
and normalized to `(false, "", "Command execution failed: ...")`. -/
def execute_command (st : ActivePods) (node : String) (out : ExecOutcome) :
    Except String (Bool × String × String) × List Ev :=
  match podsGet st node with
  | none => (Except.error (noPodMsg node), [])
  | some pod =>
    match out with
    | .output s => (Except.ok (true, s, ""), [Ev.apiExecPod pod])
    | .setupFailure m => (Except.ok (false, "", cmdFailMsg m), [Ev.apiExecPod pod])
    | .nonZeroExit m => (Except.ok (false, "", cmdFailMsg m), [Ev.apiExecPod pod])
    | .timedOut m => (Except.ok (false, "", cmdFailMsg m), [Ev.apiExecPod pod])

/-- Behavior of the body of a `with debug_pod_context(...)` block: it
returns normally or raises mid-operation. -/
inductive BodyOutcome
  | ok
  | exc (msg : String)
deriving DecidableEq

/-- Embedding of the `debug_pod_context` context manager.  `pod_name`
starts as `None`; if `create_debug_pod` raises, the `finally` block sees
`pod_name is None` and performs no teardown (the teardown already happened
inside `create_debug_pod`); once creation succeeded, the `finally` block
calls `delete_debug_pod` on every exit path of the body. -/
def debug_pod_context (st : ActivePods) (node : String) (now : Nat)
    (cout : CreateOutcome) (dcreate dfin : DeleteOutcome) (body : BodyOutcome) :
    Except String String × ActivePods × List Ev :=
  match create_debug_pod st node now cout dcreate with
  | (Except.error e, st₂, ev) => (Except.error e, st₂, ev)
  | (Except.ok pod, st₂, ev) =>
    let d := delete_debug_pod st₂ node (some pod) dfin
    match body with
    | .ok => (Except.ok pod, d.2.1, ev ++ d.2.2)
    | .exc m => (Except.error m, d.2.1, ev ++ d.2.2)

/-! ### File transfer codec: base64 over the exec channel -/

/-- The standard base64 alphabet. -/
def b64AlphabetChars : List Char :=
  "ABCDEFGHIJKLMNOPQRSTUVWXYZabcdefghijklmnopqrstuvwxyz0123456789+/".toList

/-- Character for a sextet value. -/
def b64Char (n : Nat) : Char := b64AlphabetChars.getD n '?'

/-- Sextet value of a character, `none` for characters outside the
alphabet (padding included). -/
def b64Val? (c : Char) : Option Nat :=
  let i := b64AlphabetChars.indexOf c
  if i < 64 then some i else none

/-- Data sextets of `base64.b64encode`, processing bytes in blocks of
three; a trailing block of one or two bytes yields two or three sextets. -/
def b64Sextets : List Nat → List Nat
  | [] => []
  | [a] => [a / 4, a % 4 * 16]
  | [a, b] => [a / 4, a % 4 * 16 + b / 16, b % 16 * 4]
  | a :: b :: c :: rest =>
      a / 4 :: (a % 4 * 16 + b / 16) :: (b % 16 * 4 + c / 64) :: c % 64 :: b64Sextets rest

/-- Padding characters appended by `base64.b64encode`. -/
def b64PadChars : List Nat → List Char
  | [] => []
  | [_] => ['=', '=']
  | [_, _] => ['=']
  | _ :: _ :: _ :: rest => b64PadChars rest

/-- Embedding of `base64.b64encode(...).decode('utf-8')`. -/
def b64encode (B : List Nat) : String :=
  String.mk ((b64Sextets B).map b64Char ++ b64PadChars B)

/-- Characters `base64.b64decode` retains before decoding: alphabet
characters and the padding character. -/
def isB64Keep (c : Char) : Bool := (b64Val? c).isSome || c == '='

/-- Decode data sextets in groups of four; a trailing group of two or
three sextets yields one or two bytes; a single trailing sextet is a
decode error. -/
def decodeGroups : List Nat → Option (List Nat)
  | [] => some []
  | [_] => none
  | [a, b] => some [a * 4 + b / 16]
  | [a, b, c] => some [a * 4 + b / 16, b % 16 * 16 + c / 4]
  | a :: b :: c :: d :: rest =>
      (decodeGroups rest).map
        (fun tail => (a * 4 + b / 16) :: (b % 16 * 16 + c / 4) :: (c % 4 * 64 + d) :: tail)

/-- Embedding of `base64.b64decode` (default non-validating mode):
characters outside the alphabet are discarded, the retained length
(padding included) must be a multiple of four, padding terminates the
data, and malformed input raises — returned here as `none`. -/
def b64decode (s : String) : Option (List Nat) :=
  if (s.toList.filter isB64Keep).length % 4 = 0 then
    decodeGroups
      (((s.toList.filter isB64Keep).takeWhile (fun c => !(c == '='))).filterMap b64Val?)
  else none

/-- Whitespace characters removed by Python `str.strip()`. -/
def isPySpace (c : Char) : Bool :=
  c == ' ' || c == '\t' || c == '\n' || c == '\r' || c == '\x0b' || c == '\x0c'

/-- Embedding of Python `str.strip()`. -/
def pyStrip (s : String) : String :=
  String.mk (((s.toList.dropWhile isPySpace).reverse.dropWhile isPySpace).reverse)

/-- Line wrapping of the remote `base64` tool: a newline after every 76
output characters. -/
def wrap76 (cs : List Char) : List Char :=
  if cs.length ≤ 76 then cs
  else cs.take 76 ++ '\n' :: wrap76 (cs.drop 76)
termination_by cs.length
decreasing_by simp only [List.length_drop]; omega

/-- Embedding of `os.path.dirname` for POSIX paths. -/
def dirname (p : String) : String :=
  let cs := p.toList
  if cs.contains '/' then
    let head := cs.take (cs.length - cs.reverse.indexOf '/')
    if head.all (fun c => c == '/') then String.mk head
    else String.mk (head.reverse.dropWhile (fun c => c == '/')).reverse
  else ""

/-! ### The node filesystem reached through the debug pod -/

/-- The files visible inside the debug pod, by absolute path (the node's
root is mounted at `/host`). -/
abbrev PodFS := List (String × List Nat)

/-- File lookup. -/
def fsGet (fs : PodFS) (p : String) : Option (List Nat) :=
  match fs with
  | [] => none
  | (q, v) :: rest => if q = p then some v else fsGet rest p

/-- File creation or overwrite. -/
def fsSet (fs : PodFS) (p : String) (content : List Nat) : PodFS :=
  (p, content) :: fs.filter (fun q => !(q.1 == p))

/-- Remote effect of `echo '<enc>' | base64 -d > target`: the shell
appends a newline to the echoed text, `base64 -d` decodes it (ignoring
the newline), and the redirection writes the result; on a decode error
the redirection has already truncated the target. -/
def remoteWriteB64 (fs : PodFS) (enc target : String) : PodFS :=
  match b64decode (enc ++ "\n") with
  | some bytes => fsSet fs target bytes
  | none => fsSet fs target []

/-- Remote combined output of `base64 <source>`: the encoding of the file
wrapped at 76 columns with a final newline, or an error report on the
combined stream when the file does not exist. -/
def remoteReadB64 (fs : PodFS) (source : String) : String :=
  match fsGet fs source with
  | some bytes =>
      String.mk (wrap76 ((b64Sextets bytes).map b64Char ++ b64PadChars bytes) ++ ['\n'])
  | none => "base64: " ++ source ++ ": No such file or directory"

/-- Behavior of the exec channel during one file-transfer command: it
delivers the remote command's output, delivers corrupted/unexpected
output, or raises (caught by `execute_command`). -/
inductive ChannelBehavior
  | deliver
  | deliverRaw (s : String)
  | raiseExc (msg : String)
deriving DecidableEq

/-- The `ExecOutcome` a channel behavior induces, given the output the
remote command would produce. -/
def chToExec (ch : ChannelBehavior) (remoteOutput : String) : ExecOutcome :=
  match ch with
  | .deliver => .output remoteOutput
  | .deliverRaw s => .output s
  | .raiseExc m => .setupFailure m

/-- Embedding of `KubernetesDebugPodManager.copy_file_to_pod`.  The
registry lookup precedes the `try` block, so a missing pod raises; inside
the `try` every failure (unreadable local source modelled by
`localContent = none`, failed write command) is caught and returned as
`false`.  The mkdir step's failure only produces a warning.  The write
command transfers `b64encode` of the local bytes. -/
def copy_file_to_pod (st : ActivePods) (fs : PodFS) (node : String)
    (localContent : Option (List Nat)) (remotePath : String) (useHostPath : Bool)
    (chMkdir chWrite : ChannelBehavior) :
    Except String Bool × PodFS × List Ev :=
  match podsGet st node with
  | none => (Except.error (noPodMsg node), fs, [])
  | some _ =>
    match localContent with
    | none => (Except.ok false, fs, [])
    | some content =>
      let target := if useHostPath then "/host" ++ remotePath else remotePath
      let mkEvs :=
        if dirname target = "" then [] else (execute_command st node (chToExec chMkdir "")).2
      let enc := b64encode content
      match execute_command st node (chToExec chWrite "") with
      | (Except.ok (true, _, _), wEvs) =>
          (Except.ok true, remoteWriteB64 fs enc target, mkEvs ++ wEvs)
      | (Except.ok (false, _, _), wEvs) => (Except.ok false, fs, mkEvs ++ wEvs)
      | (Except.error e, wEvs) => (Except.error e, fs, mkEvs ++ wEvs)

/-- Embedding of `KubernetesDebugPodManager.copy_file_from_pod`.  The
registry lookup precedes the `try` block; inside it, a failed read
command, a base64 decode failure of the stripped output, and a failed
local write are each caught and returned as `false`.  The second
component is the content written to the local file, `none` when nothing
was (fully) written. -/
def copy_file_from_pod (st : ActivePods) (fs : PodFS) (node : String)
    (remotePath : String) (useHostPath : Bool)
    (chRead : ChannelBehavior) (localWriteOk : Bool) :
    Except String Bool × Option (List Nat) × List Ev :=
  match podsGet st node with
  | none => (Except.error (noPodMsg node), none, [])
  | some _ =>
    let source := if useHostPath then "/host" ++ remotePath else remotePath
    match execute_command st node (chToExec chRead (remoteReadB64 fs source)) with
    | (Except.ok (true, stdout, _), evs) =>
        match b64decode (pyStrip stdout) with
        | none => (Except.ok false, none, evs)
        | some bytes =>
            if localWriteOk then (Except.ok true, some bytes, evs)
            else (Except.ok false, none, evs)
    | (Except.ok (false, _, _), evs) => (Except.ok false, none, evs)
    | (Except.error e, evs) => (Except.error e, none, evs)

/-! ### Process status interpreter -/

/-- States of the remote supervised unit as interpreted from
`systemctl status RETIS` output in `run_retis_on_node`. -/
inductive ProcessState
  | unknown
  | running
  | completedSuccess
  | completedError
  | failed
deriving DecidableEq

/-- Embedding of `status_stdout.lower()` (ASCII lowering). -/
def lowerChars (s : String) : List Char := s.toList.map Char.toLower

/-- Substring containment on character lists (`needle in hay`). -/
def listContainsSub (needle : List Char) : List Char → Bool
  | [] => needle.isEmpty
  | c :: rest => needle.isPrefixOf (c :: rest) || listContainsSub needle rest

/-- Embedding of the status-interpretation block of `run_retis_on_node`
(lines 938-959): `unit_status` starts as `"unknown"`, the block only runs
on non-empty output, and the checks are tried in order — failure
indicator, active/running, inactive+exited with or without the zero exit
marker. -/
def interpret_status (statusStdout : String) : ProcessState :=
  if statusStdout = "" then .unknown
  else if listContainsSub "active: failed".toList (lowerChars statusStdout)
      || listContainsSub "failed".toList (lowerChars statusStdout) then .failed
  else if listContainsSub "active: active".toList (lowerChars statusStdout) then .running
  else if listContainsSub "active: inactive".toList (lowerChars statusStdout)
      && listContainsSub "exited".toList (lowerChars statusStdout) then
    if listContainsSub "code=exited, status=0".toList (lowerChars statusStdout) then
      .completedSuccess
    else .completedError
  else .unknown

/-! ### Per-node fleet operations -/

/-- Environment of one node's operation: the clock second at pod
creation, the provisioning outcome, the delete outcomes for the
best-effort teardown inside `create_debug_pod` and for the context
manager's `finally` block, and the outcomes of the one or two commands
the operation runs. -/
structure NodeEnv where
  now : Nat
  cout : CreateOutcome
  dcreate : DeleteOutcome
  dfin : DeleteOutcome
  runOut : ExecOutcome
  statusOut : ExecOutcome
deriving DecidableEq

/-- Embedding of `stop_retis_on_node`: the dry-run gate returns a
synthetic success before any pod is acquired; the real path runs
`systemctl stop RETIS` inside `debug_pod_context` and returns the
command's success; every exception (context provisioning included) is
caught and returned as `false`. -/
def stop_retis_on_node (dryRun : Bool) (st : ActivePods) (node : String) (env : NodeEnv) :
    Bool × ActivePods × List Ev :=
  if dryRun then (true, st, [])
  else
    match create_debug_pod st node env.now env.cout env.dcreate with
    | (Except.error _, st₂, ev) => (false, st₂, ev)
    | (Except.ok pod, st₂, ev) =>
      match execute_command st₂ node env.runOut with
      | (Except.error _, ev₂) =>
          let d := delete_debug_pod st₂ node (some pod) env.dfin
          (false, d.2.1, ev ++ ev₂ ++ d.2.2)
      | (Except.ok (succ, _, _), ev₂) =>
          let d := delete_debug_pod st₂ node (some pod) env.dfin
          (succ, d.2.1, ev ++ ev₂ ++ d.2.2)

/-- Embedding of `reset_failed_retis_on_node`: same structure as the stop
operation, running `systemctl reset-failed`. -/
def reset_failed_retis_on_node (dryRun : Bool) (st : ActivePods) (node : String)
    (env : NodeEnv) : Bool × ActivePods × List Ev :=
  if dryRun then (true, st, [])
  else
    match create_debug_pod st node env.now env.cout env.dcreate with
    | (Except.error _, st₂, ev) => (false, st₂, ev)
    | (Except.ok pod, st₂, ev) =>
      match execute_command st₂ node env.runOut with
      | (Except.error _, ev₂) =>
          let d := delete_debug_pod st₂ node (some pod) env.dfin
          (false, d.2.1, ev ++ ev₂ ++ d.2.2)
      | (Except.ok (succ, _, _), ev₂) =>
          let d := delete_debug_pod st₂ node (some pod) env.dfin
          (succ, d.2.1, ev ++ ev₂ ++ d.2.2)

/-- Embedding of `run_retis_on_node`: dry-run gate, then the real path
launches the collection under `systemd-run` inside `debug_pod_context`; a
failed launch returns `false`; otherwise `systemctl status RETIS` is read
and interpreted, and the node succeeds exactly when the unit is running
or completed successfully. -/
def run_retis_on_node (dryRun : Bool) (st : ActivePods) (node : String) (env : NodeEnv) :
    Bool × ActivePods × List Ev :=
  if dryRun then (true, st, [])
  else
    match create_debug_pod st node env.now env.cout env.dcreate with
    | (Except.error _, st₂, ev) => (false, st₂, ev)
    | (Except.ok pod, st₂, ev) =>
      match execute_command st₂ node env.runOut with
      | (Except.error _, ev₂) =>
          let d := delete_debug_pod st₂ node (some pod) env.dfin
          (false, d.2.1, ev ++ ev₂ ++ d.2.2)
      | (Except.ok (false, _, _), ev₂) =>
          let d := delete_debug_pod st₂ node (some pod) env.dfin
          (false, d.2.1, ev ++ ev₂ ++ d.2.2)
      | (Except.ok (true, _, _), ev₂) =>
          let statusRes := execute_command st₂ node env.statusOut
          let statusStdout :=
            match statusRes.1 with
            | Except.ok r => r.2.1
            | Except.error _ => ""
          let ok :=
            match interpret_status statusStdout with
            | .failed => false
            | .running => true
            | .completedSuccess => true
            | .completedError => false
            | .unknown => false
          let d := delete_debug_pod st₂ node (some pod) env.dfin
          (ok, d.2.1, ev ++ ev₂ ++ statusRes.2 ++ d.2.2)

/-- First ten characters of `stdout.strip()` contain an `x`
(the executability check of `setup_script_on_node`). -/
def permsExecutable (stdout : String) : Bool :=
  ((pyStrip stdout).toList.take 10).contains 'x'

/-- Environment of one node's script-setup operation. -/
structure SetupEnv where
  now : Nat
  cout : CreateOutcome
  dcreate : DeleteOutcome
  dfin : DeleteOutcome
  wd : String
  lsOut : ExecOutcome
  mkdirOut : ExecOutcome
  localContent : Option (List Nat)
  chMkdir : ChannelBehavior
  chWrite : ChannelBehavior
  chmodOut : ExecOutcome
  verifyOut : ExecOutcome

/-- Embedding of `setup_script_on_node`: dry-run gate, then inside
`debug_pod_context` — check the script with `ls -la`; if it exists and is
executable return success; otherwise ensure the working directory (warn
only on failure), copy the script when absent (failure aborts), set the
executable bit (failure aborts), and verify.  All exceptions are caught
and returned as `false`. -/
def setup_script_on_node (dryRun : Bool) (st : ActivePods) (fs : PodFS)
    (node : String) (env : SetupEnv) : Bool × ActivePods × PodFS × List Ev :=
  if dryRun then (true, st, fs, [])
  else
    match create_debug_pod st node env.now env.cout env.dcreate with
    | (Except.error _, st₂, ev) => (false, st₂, fs, ev)
    | (Except.ok pod, st₂, ev) =>
      let ls := execute_command st₂ node env.lsOut
      let lsRes :=
        match ls.1 with
        | Except.ok r => r
        | Except.error _ => (false, "", "")
      let scriptExists := lsRes.1 && !(lsRes.2.1 == "")
      let scriptExecutable := scriptExists && permsExecutable lsRes.2.1
      if scriptExists && scriptExecutable then
        let d := delete_debug_pod st₂ node (some pod) env.dfin
        (true, d.2.1, fs, ev ++ ls.2 ++ d.2.2)
      else
        let mk := execute_command st₂ node env.mkdirOut
        let copyStep :=
          if !scriptExists then
            copy_file_to_pod st₂ fs node env.localContent
              (env.wd ++ "/retis_in_container.sh") true env.chMkdir env.chWrite
          else (Except.ok true, fs, [])
        match copyStep with
        | (Except.ok false, fs₂, cEv) =>
            let d := delete_debug_pod st₂ node (some pod) env.dfin
            (false, d.2.1, fs₂, ev ++ ls.2 ++ mk.2 ++ cEv ++ d.2.2)
        | (Except.error _, fs₂, cEv) =>
            let d := delete_debug_pod st₂ node (some pod) env.dfin
            (false, d.2.1, fs₂, ev ++ ls.2 ++ mk.2 ++ cEv ++ d.2.2)
        | (Except.ok true, fs₂, cEv) =>
            let ch := execute_command st₂ node env.chmodOut
            match ch.1 with
            | Except.error _ =>
                let d := delete_debug_pod st₂ node (some pod) env.dfin
                (false, d.2.1, fs₂, ev ++ ls.2 ++ mk.2 ++ cEv ++ ch.2 ++ d.2.2)
            | Except.ok (false, _, _) =>
                let d := delete_debug_pod st₂ node (some pod) env.dfin
                (false, d.2.1, fs₂, ev ++ ls.2 ++ mk.2 ++ cEv ++ ch.2 ++ d.2.2)
            | Except.ok (true, _, _) =>
                let ver := execute_command st₂ node env.verifyOut
                let ok :=
                  match ver.1 with
                  | Except.ok r => r.1
                  | Except.error _ => false
                let d := delete_debug_pod st₂ node (some pod) env.dfin
                (ok, d.2.1, fs₂, ev ++ ls.2 ++ mk.2 ++ cEv ++ ch.2 ++ ver.2 ++ d.2.2)

/-- Environment of one node's download operation. -/
structure DownloadEnv where
  now : Nat
  cout : CreateOutcome
  dcreate : DeleteOutcome
  dfin : DeleteOutcome
  fs : PodFS
  wd : String
  outputFile : String
  lsOut : ExecOutcome
  chRead : ChannelBehavior
  localDirOk : Bool
  localWriteOk : Bool

/-- Embedding of `download_results_from_node`: dry-run gate, then inside
`debug_pod_context` — check that the results file exists (failure
aborts), create the local download directory, pull the file with
`copy_file_from_pod`, and verify the local file exists.  All exceptions
are caught and returned as `false`. -/
def download_results_from_node (dryRun : Bool) (st : ActivePods) (node : String)
    (env : DownloadEnv) : Bool × ActivePods × Option (List Nat) × List Ev :=
  if dryRun then (true, st, none, [])
  else
    match create_debug_pod st node env.now env.cout env.dcreate with
    | (Except.error _, st₂, ev) => (false, st₂, none, ev)
    | (Except.ok pod, st₂, ev) =>
      let ls := execute_command st₂ node env.lsOut
      match ls.1 with
      | Except.error _ =>
          let d := delete_debug_pod st₂ node (some pod) env.dfin
          (false, d.2.1, none, ev ++ ls.2 ++ d.2.2)
      | Except.ok (false, _, _) =>
          let d := delete_debug_pod st₂ node (some pod) env.dfin
          (false, d.2.1, none, ev ++ ls.2 ++ d.2.2)
      | Except.ok (true, _, _) =>
          if !env.localDirOk then
            let d := delete_debug_pod st₂ node (some pod) env.dfin
            (false, d.2.1, none, ev ++ ls.2 ++ d.2.2)
          else
            let c := copy_file_from_pod st₂ env.fs node
              (env.wd ++ "/" ++ env.outputFile) true env.chRead env.localWriteOk
            let ok :=
              match c.1 with
              | Except.ok b => b && c.2.1.isSome
              | Except.error _ => false
            let d := delete_debug_pod st₂ node (some pod) env.dfin
            (ok, d.2.1, c.2.1, ev ++ ls.2 ++ c.2.2 ++ d.2.2)

/-! ### Fleet orchestration -/

/-- Sequential fleet loop of `main`: process the nodes in selection
order, collecting one `(node, succeeded)` entry per node and threading
the manager's registry; the summary counts derive from the entries. -/
def fleet_sequential (f : String → ActivePods → Bool × ActivePods × List Ev) :
    List String → ActivePods → List (String × Bool) × ActivePods × List Ev
  | [], st => ([], st, [])
  | n :: rest, st =>
    let r := f n st
    let tail₂ := fleet_sequential f rest r.2.1
    ((n, r.1) :: tail₂.1, tail₂.2.1, r.2.2 ++ tail₂.2.2)

/-- Bounded-parallel fleet loop of `main` (`ThreadPoolExecutor` with
`as_completed`): per-node tasks are independent and their results are
collected in completion order, modelled as processing along `order`, an
arbitrary permutation of the selected nodes. -/
def fleet_parallel (f : String → ActivePods → Bool × ActivePods × List Ev)
    (order : List String) (st : ActivePods) :
    List (String × Bool) × ActivePods × List Ev :=
  fleet_sequential f order st

/-- Number of entries marked succeeded (`success_count` in `main`). -/
def summarySuccesses (entries : List (String × Bool)) : Nat :=
  (entries.filter (fun e => e.2)).length

/-- The stop operation's per-node task, as submitted by `main`. -/
def stopTask (dryRun : Bool) (beh : String → NodeEnv) (n : String) (st : ActivePods) :
    Bool × ActivePods × List Ev :=
  stop_retis_on_node dryRun st n (beh n)

/-- The reset-failed operation's per-node task, as submitted by `main`. -/
def resetTask (dryRun : Bool) (beh : String → NodeEnv) (n : String) (st : ActivePods) :
    Bool × ActivePods × List Ev :=
  reset_failed_retis_on_node dryRun st n (beh n)

/-- The collection operation's per-node task, as submitted by `main`. -/
def collectTask (dryRun : Bool) (beh : String → NodeEnv) (n : String) (st : ActivePods) :
    Bool × ActivePods × List Ev :=
  run_retis_on_node dryRun st n (beh n)

/-- The download operation's per-node task, as submitted by `main`. -/
def downloadTask (dryRun : Bool) (beh : String → DownloadEnv) (n : String) (st : ActivePods) :
    Bool × ActivePods × List Ev :=
  let r := download_results_from_node dryRun st n (beh n)
  (r.1, r.2.1, r.2.2.2)

/-- The fixed concurrency cap of the worker pools in `main`. -/
def concurrencyCap : Nat := 5

/-- Worker-pool size of the parallel stop loop:
`ThreadPoolExecutor(max_workers=min(len(nodes), 5))`. -/
def stopPoolWorkers (nodes : List String) : Nat := min nodes.length 5

/-- Worker-pool size of the parallel reset-failed loop. -/
def resetPoolWorkers (nodes : List String) : Nat := min nodes.length 5

/-- Worker-pool size of the parallel download loop. -/
def downloadPoolWorkers (nodes : List String) : Nat := min nodes.length 5

/-- Worker-pool size of the parallel collection loop. -/
def collectionPoolWorkers (nodes : List String) : Nat := min nodes.length 5

/-- The four fleet operations `main` dispatches on. -/
inductive FleetOp
  | startCollection
  | stop
  | resetFailed
  | download
deriving DecidableEq

/-- Worker-pool size used by `main` for each operation's parallel mode. -/
def opPoolWorkers : FleetOp → List String → Nat
  | .startCollection, nodes => collectionPoolWorkers nodes
  | .stop, nodes => stopPoolWorkers nodes
  | .resetFailed, nodes => resetPoolWorkers nodes
  | .download, nodes => downloadPoolWorkers nodes

/-! ### Derived definitions used in the statements -/

/-- The pod name `delete_debug_pod` operates on: the explicit argument if
given, otherwise the registry entry. -/
def resolvePodName (st : ActivePods) (node : String) (podName? : Option String) :
    Option String :=
  match podName? with
  | some p => some p
  | none => podsGet st node

/-- The `(success, stdout, stderr)` triple `execute_command` produces for
a given channel outcome once the pod lookup has succeeded. -/
def execResultOf : ExecOutcome → Bool × String × String
  | .output s => (true, s, "")
  | .setupFailure m => (false, "", cmdFailMsg m)
  | .nonZeroExit m => (false, "", cmdFailMsg m)
  | .timedOut m => (false, "", cmdFailMsg m)

/-- The per-node outcome of the collection operation as a function of the
node's environment alone (the result of `run_retis_on_node` does not
depend on the registry the operation starts from). -/
def collectResult (env : NodeEnv) : Bool :=
  match env.cout with
  | .ready =>
    match execResultOf env.runOut with
    | (false, _, _) => false
    | (true, _, _) =>
      match interpret_status (execResultOf env.statusOut).2.1 with
      | .failed => false
      | .running => true
      | .completedSuccess => true
      | .completedError => false
      | .unknown => false
  | _ => false

/-! ## Theorems -/

/-! ### Registry lemmas -/

theorem podsGet_podsSet (m : ActivePods) (k v : String) :
    podsGet (podsSet m k v) k = some v := by
  simp [podsGet, podsSet]

theorem podsGet_podsDel (m : ActivePods) (k : String) :
    podsGet (podsDel m k) k = none := by
  induction m with
  | nil => rfl
  | cons p rest ih =>
    simp only [podsDel, List.filter_cons] at ih ⊢
    by_cases h : p.1 = k
    · simpa [h] using ih
    · simpa [podsGet, h] using ih

theorem fsGet_fsSet (fs : PodFS) (p : String) (v : List Nat) :
    fsGet (fsSet fs p v) p = some v := by
  simp [fsGet, fsSet]

/-! ### C1: guaranteed release -/

/-- C1: for every node operation run through `debug_pod_context`, exactly
one `delete_debug_pod` call occurs per `create_debug_pod` call, on every
exit path — normal return of the body, an exception raised mid-operation,
and a creation that itself fails (where the teardown attempt happens
inside `create_debug_pod` before the error propagates). -/
theorem debug_pod_context_release (st : ActivePods) (node : String) (now : Nat)
    (cout : CreateOutcome) (dcreate dfin : DeleteOutcome) (body : BodyOutcome) :
    countEv isDeleteCall (debug_pod_context st node now cout dcreate dfin body).2.2 = 1 ∧
    countEv isCreateCall (debug_pod_context st node now cout dcreate dfin body).2.2 = 1 := by
  cases cout <;> cases body <;> cases dcreate <;> cases dfin <;>
    simp [debug_pod_context, create_debug_pod, delete_debug_pod, deleteResolved,
      countEv, isDeleteCall, isCreateCall, List.filter_cons]

/-! ### C2: command runner error normalization -/

/-- C2: `execute_command` raises exactly when no active context exists for
the named node; with an active context it never raises, and channel setup
failure, a remote non-zero exit surfaced by the channel, and timeout all
normalize to `succeeded = false` with a descriptive (non-empty)
`stderr`. -/
theorem execute_command_contract (st : ActivePods) (node : String) (out : ExecOutcome) :
    (podsGet st node = none →
      execute_command st node out = (Except.error (noPodMsg node), [])) ∧
    (∀ pod, podsGet st node = some pod →
      execute_command st node out = (Except.ok (execResultOf out), [Ev.apiExecPod pod]) ∧
      (∀ m, out = .setupFailure m ∨ out = .nonZeroExit m ∨ out = .timedOut m →
        (execResultOf out).1 = false ∧ (execResultOf out).2.2 = cmdFailMsg m)) ∧
    (∀ m, cmdFailMsg m ≠ "") := by
  refine ⟨fun h => by simp [execute_command, h], fun pod h => ⟨?_, ?_⟩, fun m hc => ?_⟩
  · cases out <;> simp [execute_command, h, execResultOf]
  · rintro m (rfl | rfl | rfl) <;> simp [execResultOf]
  · have h₂ := congrArg String.data hc
    simp only [cmdFailMsg, String.data_append] at h₂
    exact absurd (List.append_eq_nil.mp h₂).1 (by decide)

/-- Witness for C2 at concrete inputs: a timeout on an active context
yields a normalized failure result, and a missing context raises. -/
theorem execute_command_contract_witness :
    execute_command [("node-a", "pod-a")] "node-a" (.timedOut "t") =
      (Except.ok (false, "", cmdFailMsg "t"), [Ev.apiExecPod "pod-a"]) ∧
    execute_command [] "node-a" (.output "hi") = (Except.error (noPodMsg "node-a"), []) := by
  constructor
  · exact ((execute_command_contract [("node-a", "pod-a")] "node-a"
      (.timedOut "t")).2.1 "pod-a" (by decide)).1
  · exact (execute_command_contract [] "node-a" (.output "hi")).1 rfl

/-! ### Codec lemmas for C3 -/

theorem b64Val_b64Char : ∀ n : Fin 64, b64Val? (b64Char n.val) = some n.val := by decide

theorem b64Char_ne_pad : ∀ n : Fin 64, (b64Char n.val == '=') = false := by decide

theorem b64Val_b64Char_of_lt {n : Nat} (h : n < 64) : b64Val? (b64Char n) = some n :=
  b64Val_b64Char ⟨n, h⟩

theorem isB64Keep_b64Char {n : Nat} (h : n < 64) : isB64Keep (b64Char n) = true := by
  simp [isB64Keep, b64Val_b64Char_of_lt h]

theorem b64Sextets_lt (B : List Nat) (hB : ∀ b ∈ B, b < 256) :
    ∀ s ∈ b64Sextets B, s < 64 := by
  induction B using b64Sextets.induct with
  | case1 => simp [b64Sextets]
  | case2 a =>
    have ha := hB a (by simp)
    simp only [b64Sextets, List.mem_cons, List.not_mem_nil, or_false]
    rintro s (rfl | rfl) <;> omega
  | case3 a b =>
    have ha := hB a (by simp)
    have hb := hB b (by simp)
    simp only [b64Sextets, List.mem_cons, List.not_mem_nil, or_false]
    rintro s (rfl | rfl | rfl) <;> omega
  | case4 a b c rest ih =>
    have ha := hB a (by simp)
    have hb := hB b (by simp)
    have hc := hB c (by simp)
    have ih₂ := ih (fun x hx => hB x (by simp [hx]))
    simp only [b64Sextets, List.mem_cons]
    rintro s (rfl | rfl | rfl | rfl | hs)
    · omega
    · omega
    · omega
    · omega
    · exact ih₂ s hs

theorem b64PadChars_all_pad (B : List Nat) : ∀ c ∈ b64PadChars B, c = '=' := by
  induction B using b64PadChars.induct <;> simp_all [b64PadChars]
  assumption

theorem b64_enc_length_mod (B : List Nat) :
    ((b64Sextets B).length + (b64PadChars B).length) % 4 = 0 := by
  induction B using b64Sextets.induct <;> simp_all [b64Sextets, b64PadChars]
  all_goals omega

theorem takeWhile_append_of_all {α : Type} (p : α → Bool) (xs ys : List α)
    (h : ∀ a ∈ xs, p a = true) :
    (xs ++ ys).takeWhile p = xs ++ ys.takeWhile p := by
  induction xs with
  | nil => simp
  | cons x xs ih =>
    rw [List.cons_append, List.takeWhile_cons, h x (by simp),
      ih (fun a ha => h a (by simp [ha]))]
    simp

theorem takeWhile_pad (B : List Nat) :
    (b64PadChars B).takeWhile (fun c => !(c == '=')) = [] := by
  cases hp : b64PadChars B with
  | nil => rfl
  | cons c rest =>
    have hc : c = '=' := b64PadChars_all_pad B c (by rw [hp]; simp)
    subst hc
    rw [List.takeWhile_cons]
    simp

theorem filterMap_b64Val_map (s : List Nat) (h : ∀ x ∈ s, x < 64) :
    (s.map b64Char).filterMap b64Val? = s := by
  induction s with
  | nil => rfl
  | cons x xs ih =>
    rw [List.map_cons, List.filterMap_cons]
    simp only [b64Val_b64Char_of_lt (h x (by simp))]
    rw [ih (fun a ha => h a (by simp [ha]))]

theorem decodeGroups_b64Sextets (B : List Nat) (hB : ∀ b ∈ B, b < 256) :
    decodeGroups (b64Sextets B) = some B := by
  induction B using b64Sextets.induct with
  | case1 => rfl
  | case2 a =>
    have ha := hB a (by simp)
    simp only [b64Sextets, decodeGroups, Option.some.injEq, List.cons.injEq, and_true]
    omega
  | case3 a b =>
    have ha := hB a (by simp)
    have hb := hB b (by simp)
    simp only [b64Sextets, decodeGroups, Option.some.injEq, List.cons.injEq, and_true]
    omega
  | case4 a b c rest ih =>
    have ha := hB a (by simp)
    have hb := hB b (by simp)
    have hc := hB c (by simp)
    have ih₂ := ih (fun x hx => hB x (by simp [hx]))
    simp only [b64Sextets, decodeGroups, ih₂, Option.map_some', Option.some.injEq,
      List.cons.injEq, and_true]
    omega

theorem b64decode_of_filter (s : String) (B : List Nat) (hB : ∀ b ∈ B, b < 256)
    (hf : s.toList.filter isB64Keep = (b64Sextets B).map b64Char ++ b64PadChars B) :
    b64decode s = some B := by
  have hs : ∀ x ∈ b64Sextets B, x < 64 := b64Sextets_lt B hB
  have hlen : (s.toList.filter isB64Keep).length % 4 = 0 := by
    rw [hf, List.length_append, List.length_map]
    exact b64_enc_length_mod B
  have hmapne : ∀ a ∈ (b64Sextets B).map b64Char, (fun c => !(c == '=')) a = true := by
    intro a ha
    obtain ⟨x, hx, rfl⟩ := List.mem_map.mp ha
    simp only [Bool.not_eq_true']
    exact b64Char_ne_pad ⟨x, hs x hx⟩
  rw [b64decode, if_pos hlen, hf, takeWhile_append_of_all _ _ _ hmapne, takeWhile_pad,
    List.append_nil, filterMap_b64Val_map _ hs]
  exact decodeGroups_b64Sextets B hB

theorem filter_encode_newline (B : List Nat) (hB : ∀ b ∈ B, b < 256) :
    (b64encode B ++ "\n").toList.filter isB64Keep
      = (b64Sextets B).map b64Char ++ b64PadChars B := by
  have hlist : (b64encode B ++ "\n").toList
      = ((b64Sextets B).map b64Char ++ b64PadChars B) ++ ['\n'] := by
    show (b64encode B ++ "\n").data = _
    rw [String.data_append]
    rfl
  rw [hlist, List.filter_append, List.filter_append]
  rw [List.filter_eq_self.mpr, List.filter_eq_self.mpr]
  · norm_num
    decide
  · intro a ha
    rw [b64PadChars_all_pad B a ha]
    decide
  · intro a ha
    obtain ⟨x, hx, rfl⟩ := List.mem_map.mp ha
    exact isB64Keep_b64Char (b64Sextets_lt B hB x hx)

/-- Base64 round trip on the push side: decoding what the write command
feeds through the remote `base64 -d` (the encoded text plus the newline
`echo` appends) recovers exactly the local bytes. -/
theorem b64decode_encode_newline (B : List Nat) (hB : ∀ b ∈ B, b < 256) :
    b64decode (b64encode B ++ "\n") = some B :=
  b64decode_of_filter _ B hB (filter_encode_newline B hB)

theorem filter_wrap76 (l : List Char) :
    (wrap76 l).filter isB64Keep = l.filter isB64Keep := by
  induction l using wrap76.induct with
  | case1 x h =>
    unfold wrap76
    rw [if_pos h]
  | case2 x h ih =>
    unfold wrap76
    rw [if_neg h]
    rw [List.filter_append, List.filter_cons]
    have hnl : isB64Keep '\n' = false := by decide
    rw [hnl]
    simp only [Bool.false_eq_true, if_false]
    rw [ih, ← List.filter_append, List.take_append_drop]

theorem filter_dropWhile_eq {α : Type} (p q : α → Bool)
    (h : ∀ c, q c = true → p c = false) (l : List α) :
    (l.dropWhile q).filter p = l.filter p := by
  conv_rhs => rw [← List.takeWhile_append_dropWhile q l]
  rw [List.filter_append]
  have ht : (l.takeWhile q).filter p = [] :=
    List.filter_eq_nil_iff.mpr fun a ha => by simp [h a (List.mem_takeWhile_imp ha)]
  rw [ht, List.nil_append]

theorem isB64Keep_of_pySpace {c : Char} (h : isPySpace c = true) : isB64Keep c = false := by
  simp only [isPySpace, Bool.or_eq_true, beq_iff_eq] at h
  rcases h with ((((rfl | rfl) | rfl) | rfl) | rfl) | rfl <;> decide

theorem filter_pyStrip (s : String) :
    (pyStrip s).toList.filter isB64Keep = s.toList.filter isB64Keep := by
  show ((((s.toList.dropWhile isPySpace).reverse.dropWhile
      isPySpace).reverse).filter isB64Keep) = _
  rw [List.filter_reverse, filter_dropWhile_eq _ _ (fun c => isB64Keep_of_pySpace),
    List.filter_reverse, List.reverse_reverse,
    filter_dropWhile_eq _ _ (fun c => isB64Keep_of_pySpace)]

/-- Base64 round trip on the pull side: stripping and decoding the remote
`base64` output (the encoding wrapped at 76 columns plus a final newline)
recovers exactly the file bytes. -/
theorem b64decode_pyStrip_read (bytes : List Nat) (hB : ∀ b ∈ bytes, b < 256) :
    b64decode (pyStrip (String.mk
      (wrap76 ((b64Sextets bytes).map b64Char ++ b64PadChars bytes) ++ ['\n'])))
      = some bytes := by
  apply b64decode_of_filter _ bytes hB
  rw [filter_pyStrip]
  show (wrap76 ((b64Sextets bytes).map b64Char ++ b64PadChars bytes)
      ++ ['\n']).filter isB64Keep = _
  rw [List.filter_append, filter_wrap76]
  have hnl : List.filter isB64Keep ['\n'] = [] := by decide
  rw [hnl, List.append_nil]
  rw [List.filter_eq_self.mpr]
  intro a ha
  rcases List.mem_append.mp ha with hm | hp
  · obtain ⟨x, hx, rfl⟩ := List.mem_map.mp hm
    exact isB64Keep_b64Char (b64Sextets_lt bytes hB x hx)
  · rw [b64PadChars_all_pad bytes a hp]
    decide

/-! ### C4: status interpretation -/

/-- C4: the status-interpretation logic is total (returns a value for
arbitrary status text, the empty string included), yields the specified
state on each of the five literal inputs, and the failure-indicator check
takes priority over the active/running and inactive/exited checks. -/
theorem interpret_status_contract :
    interpret_status "Active: active (running)" = .running ∧
    interpret_status "Active: failed" = .failed ∧
    interpret_status "Active: inactive (dead)... code=exited, status=0/SUCCESS"
      = .completedSuccess ∧
    interpret_status "Active: inactive (dead)... code=exited, status=1/FAILURE"
      = .completedError ∧
    interpret_status "garbage text" = .unknown ∧
    interpret_status "" = .unknown ∧
    (∀ s, ∃ r, interpret_status s = r) ∧
    (∀ s, s ≠ "" →
      (listContainsSub "active: failed".toList (lowerChars s)
        || listContainsSub "failed".toList (lowerChars s)) = true →
      interpret_status s = .failed) := by
  refine ⟨by decide, by decide, by decide, by decide, by decide, by decide,
    fun s => ⟨_, rfl⟩, fun s hne hf => ?_⟩
  unfold interpret_status
  rw [if_neg hne, if_pos hf]

/-- Witness for C4's priority clause at a concrete input: text containing
the failure indicator is classified `failed`. -/
theorem interpret_status_contract_witness :
    interpret_status "unit entered failed state" = .failed :=
  interpret_status_contract.2.2.2.2.2.2.2 "unit entered failed state" (by decide) (by decide)

/-! ### C3: push/pull round trip -/

/-- C3: for every byte sequence `B` (empty, all-zero and non-ASCII
included), pushing `B` to a remote path with `copy_file_to_pod` and then
pulling the same path with `copy_file_from_pod` returns exactly `B`: the
encode step (base64 of the local bytes embedded in the write command)
composed with the decode step (base64-decoding the stripped remote
command output) is the identity on byte sequences. -/
theorem push_pull_roundtrip (st : ActivePods) (fs : PodFS) (node pod : String)
    (B : List Nat) (rp : String)
    (hpod : podsGet st node = some pod) (hB : ∀ b ∈ B, b < 256) :
    (copy_file_to_pod st fs node (some B) rp true .deliver .deliver).1 = Except.ok true ∧
    (copy_file_from_pod st (copy_file_to_pod st fs node (some B) rp true .deliver .deliver).2.1
        node rp true .deliver true).1 = Except.ok true ∧
    (copy_file_from_pod st (copy_file_to_pod st fs node (some B) rp true .deliver .deliver).2.1
        node rp true .deliver true).2.1 = some B := by
  have hw : remoteWriteB64 fs (b64encode B) ("/host" ++ rp) = fsSet fs ("/host" ++ rp) B := by
    rw [remoteWriteB64, b64decode_encode_newline B hB]
  have h₁ : (copy_file_to_pod st fs node (some B) rp true .deliver .deliver).1
      = Except.ok true := by
    simp [copy_file_to_pod, hpod, execute_command, chToExec]
  have h₂ : (copy_file_to_pod st fs node (some B) rp true .deliver .deliver).2.1
      = fsSet fs ("/host" ++ rp) B := by
    simp [copy_file_to_pod, hpod, execute_command, chToExec, hw]
  have hread : remoteReadB64 (fsSet fs ("/host" ++ rp) B) ("/host" ++ rp)
      = String.mk (wrap76 ((b64Sextets B).map b64Char ++ b64PadChars B) ++ ['\n']) := by
    rw [remoteReadB64, fsGet_fsSet]
  refine ⟨h₁, ?_, ?_⟩ <;>
    simp [copy_file_from_pod, hpod, execute_command, chToExec, h₂, hread,
      b64decode_pyStrip_read B hB]

/-- Witness for C3 at a concrete input containing a zero byte, a
non-ASCII byte, and an embedded newline byte. -/
theorem push_pull_roundtrip_witness :
    (copy_file_to_pod [("node-c", "pod-c")] [] "node-c" (some [0, 255, 10, 65]) "/tmp/x.bin"
        true .deliver .deliver).1 = Except.ok true ∧
    (copy_file_from_pod [("node-c", "pod-c")]
        (copy_file_to_pod [("node-c", "pod-c")] [] "node-c" (some [0, 255, 10, 65]) "/tmp/x.bin"
          true .deliver .deliver).2.1
        "node-c" "/tmp/x.bin" true .deliver true).1 = Except.ok true ∧
    (copy_file_from_pod [("node-c", "pod-c")]
        (copy_file_to_pod [("node-c", "pod-c")] [] "node-c" (some [0, 255, 10, 65]) "/tmp/x.bin"
          true .deliver .deliver).2.1
        "node-c" "/tmp/x.bin" true .deliver true).2.1 = some [0, 255, 10, 65] :=
  push_pull_roundtrip [("node-c", "pod-c")] [] "node-c" "pod-c" [0, 255, 10, 65] "/tmp/x.bin"
    (by decide) (by decide)

/-! ### C5: idempotent, non-raising teardown -/

/-- C5: `delete_debug_pod` never raises and returns success exactly when
there is nothing to delete (no active pod for the node), the delete
succeeded, or the control plane reported 404; every other teardown
failure is returned as `false` without raising.  Moreover teardown is
idempotent: after a successful teardown, a second teardown for the same
node returns success whatever the control plane would answer. -/
theorem delete_debug_pod_idempotent (st : ActivePods) (node : String)
    (podName? : Option String) (out out₂ : DeleteOutcome) (pod : String) :
    ((delete_debug_pod st node podName? out).1 = true ↔
      resolvePodName st node podName? = none ∨ out = .ok ∨ out = .notFound) ∧
    (podsGet st node = some pod →
      (delete_debug_pod (delete_debug_pod st node (some pod) .ok).2.1 node none out₂).1
        = true) := by
  constructor
  · cases podName? with
    | some p => cases out <;> simp [delete_debug_pod, deleteResolved, resolvePodName]
    | none =>
      cases hg : podsGet st node with
      | none => simp [delete_debug_pod, hg, resolvePodName]
      | some p => cases out <;> simp [delete_debug_pod, deleteResolved, hg, resolvePodName]
  · intro h
    simp [delete_debug_pod, deleteResolved, h, podsGet_podsDel]

/-- Witness for C5 at concrete inputs: a 404 teardown returns success,
and a second teardown after a successful one returns success even when
the control plane would report an arbitrary API error. -/
theorem delete_debug_pod_idempotent_witness :
    (delete_debug_pod ([("node-b", "pod-b")] : ActivePods) "node-b" none .notFound).1 = true ∧
    (delete_debug_pod
        (delete_debug_pod [("node-b", "pod-b")] "node-b" (some "pod-b") .ok).2.1
        "node-b" none (.apiError "e")).1 = true := by
  constructor
  · exact ((delete_debug_pod_idempotent [("node-b", "pod-b")] "node-b" none .notFound
      .ok "pod-b").1).mpr (Or.inr (Or.inr rfl))
  · exact (delete_debug_pod_idempotent [("node-b", "pod-b")] "node-b" none .notFound
      (.apiError "e") "pod-b").2 (by decide)

/-! ### C8: context identifier generation -/

theorem decDigitChar_inj10 :
    ∀ a b : Fin 10, decDigitChar a.val = decDigitChar b.val → a.val = b.val := by decide

theorem decChars_ne_nil (n : Nat) : decChars n ≠ [] := by
  unfold decChars
  by_cases h : n < 10
  · rw [dif_pos h]; simp
  · rw [dif_neg h]; simp

theorem decChars_injective : ∀ t₁ t₂ : Nat, decChars t₁ = decChars t₂ → t₁ = t₂ := by
  intro t₁
  induction t₁ using Nat.strong_induction_on with
  | _ t₁ ih =>
    intro t₂ h
    by_cases h₁ : t₁ < 10 <;> by_cases h₂ : t₂ < 10 <;>
      unfold decChars at h
    · rw [dif_pos h₁, dif_pos h₂] at h
      simp only [List.cons.injEq, and_true] at h
      exact decDigitChar_inj10 ⟨t₁, h₁⟩ ⟨t₂, h₂⟩ h
    · rw [dif_pos h₁, dif_neg h₂] at h
      have hlen := congrArg List.length h
      simp only [List.length_cons, List.length_nil, List.length_append] at hlen
      have := decChars_ne_nil (t₂ / 10)
      cases hd : decChars (t₂ / 10) with
      | nil => exact absurd hd this
      | cons c cs => rw [hd] at hlen; simp at hlen
    · rw [dif_neg h₁, dif_pos h₂] at h
      have hlen := congrArg List.length h
      simp only [List.length_cons, List.length_nil, List.length_append] at hlen
      have := decChars_ne_nil (t₁ / 10)
      cases hd : decChars (t₁ / 10) with
      | nil => exact absurd hd this
      | cons c cs => rw [hd] at hlen; simp at hlen
    · rw [dif_neg h₁, dif_neg h₂] at h
      have hrev := congrArg List.reverse h
      simp only [List.reverse_append, List.reverse_singleton, List.singleton_append,
        List.cons.injEq] at hrev
      have hmod : t₁ % 10 = t₂ % 10 :=
        decDigitChar_inj10 ⟨t₁ % 10, Nat.mod_lt _ (by omega)⟩
          ⟨t₂ % 10, Nat.mod_lt _ (by omega)⟩ hrev.1
    -- the quotients have equal renderings, hence are equal by induction
      have hq : decChars (t₁ / 10) = decChars (t₂ / 10) := by
        have := congrArg List.reverse hrev.2
        rwa [List.reverse_reverse, List.reverse_reverse] at this
      have hdiv : t₁ / 10 = t₂ / 10 :=
        ih (t₁ / 10) (Nat.div_lt_self (by omega) (by omega)) (t₂ / 10) hq
      omega

theorem genPodName_inj_time (node : String) (t₁ t₂ : Nat)
    (h : genPodName node t₁ = genPodName node t₂) : t₁ = t₂ := by
  have h₂ := congrArg String.data h
  simp only [genPodName, List.append_assoc] at h₂
  exact decChars_injective _ _
    (List.append_cancel_left (List.append_cancel_left (List.append_cancel_left h₂)))

/-- C8 counterexample: the claim that two context creations for the same
node always generate distinct identifiers is false — a creation that
fails and is retried within the same clock second generates the same pod
name.  Concretely, the failed creation's best-effort teardown targets
`debug-worker-1-1700000000`, and the retry in the same second returns the
very same identifier. -/
theorem context_id_reuse_counterexample :
    (create_debug_pod [] "worker-1" 1700000000 (.apiError "connection reset") .ok).2.2
      = [Ev.createDebugPodCall "worker-1", Ev.apiCreatePod "debug-worker-1-1700000000",
         Ev.deleteDebugPodCall "worker-1", Ev.apiDeletePod "debug-worker-1-1700000000"] ∧
    (create_debug_pod [] "worker-1" 1700000000 .ready .ok).1
      = Except.ok "debug-worker-1-1700000000" ∧
    ¬ (∀ t₁ t₂ : Nat, genPodName "worker-1" t₁ ≠ genPodName "worker-1" t₂) := by
  have hn : genPodName "worker-1" 1700000000 = "debug-worker-1-1700000000" := by
    simp [genPodName, sanitizeNode, decChars, decDigitChar]
  refine ⟨?_, ?_, fun hdist => hdist 1700000000 1700000000 rfl⟩
  · simp [create_debug_pod, deleteResolved, podsGet, hn]
  · simp [create_debug_pod, hn]

/-- C8 amended: two generated context identifiers for the same node are
distinct whenever the creation timestamps (`int(time.time())`, whole
seconds) differ; creations falling in the same clock second reuse the
identifier. -/
theorem pod_name_distinct_amended (node : String) (t₁ t₂ : Nat) (h : t₁ ≠ t₂) :
    genPodName node t₁ ≠ genPodName node t₂ :=
  fun hc => h (genPodName_inj_time node t₁ t₂ hc)

/-- Witness for the amended C8 at concrete inputs: creations one second
apart get distinct pod names. -/
theorem pod_name_distinct_amended_witness :
    genPodName "worker-1" 1700000000 ≠ genPodName "worker-1" 1700000001 :=
  pod_name_distinct_amended "worker-1" 1700000000 1700000001 (by decide)

/-! ### C6: batch failure isolation -/

theorem run_retis_result_eq (st : ActivePods) (node : String) (env : NodeEnv) :
    (run_retis_on_node false st node env).1 = collectResult env := by
  obtain ⟨now, cout, dcr, dfin, runOut, statusOut⟩ := env
  cases cout
  case ready =>
    cases runOut <;> cases statusOut <;>
      simp [run_retis_on_node, create_debug_pod, execute_command, podsGet_podsSet,
        collectResult, execResultOf, delete_debug_pod, deleteResolved]
  all_goals
    simp [run_retis_on_node, create_debug_pod, collectResult, delete_debug_pod, deleteResolved]

theorem collectResult_of_provision_fail (env : NodeEnv) (h : env.cout ≠ .ready) :
    collectResult env = false := by
  obtain ⟨now, cout, dcr, dfin, r, s⟩ := env
  cases cout
  case ready => exact absurd rfl h
  all_goals rfl

theorem fleet_sequential_entries (f : String → ActivePods → Bool × ActivePods × List Ev)
    (g : String → Bool) (hf : ∀ n st, (f n st).1 = g n) :
    ∀ (order : List String) (st : ActivePods),
      (fleet_sequential f order st).1 = order.map (fun n => (n, g n)) := by
  intro order
  induction order with
  | nil => intro st; rfl
  | cons n rest ih => intro st; simp [fleet_sequential, hf, ih]

theorem filter_failed_map_eq (order : List String) (k : String) (g : String → Bool)
    (hnd : order.Nodup) (hk : k ∈ order) (hkf : g k = false)
    (hok : ∀ n ∈ order, n ≠ k → g n = true) :
    (order.map (fun n => (n, g n))).filter (fun e => !e.2) = [(k, false)] := by
  induction order with
  | nil => cases hk
  | cons n rest ih =>
    rcases List.mem_cons.mp hk with rfl | hk₂
    · have hrest : (rest.map (fun m => (m, g m))).filter (fun e => !e.2) = [] := by
        apply List.filter_eq_nil_iff.mpr
        intro e he
        obtain ⟨m, hm, rfl⟩ := List.mem_map.mp he
        have hmk : m ≠ k := fun hmk => (List.nodup_cons.mp hnd).1 (hmk ▸ hm)
        simp [hok m (List.mem_cons_of_mem _ hm) hmk]
      simp [List.filter_cons, hkf, hrest]
    · have hneq : n ≠ k := fun h => (List.nodup_cons.mp hnd).1 (h ▸ hk₂)
      have hn := hok n (List.mem_cons_self n rest) hneq
      rw [List.map_cons, List.filter_cons]
      simp only [hn, Bool.not_true, Bool.false_eq_true, if_false]
      exact ih (List.nodup_cons.mp hnd).2 hk₂
        (fun m hm hmk => hok m (List.mem_cons_of_mem _ hm) hmk)

/-- C6: a fleet collection run over `N` selected nodes in which exactly
one node `k` fails context provisioning produces a summary with `N`
entries, exactly one of them marked failed (node `k`), and the per-node
operation completes with success for all other nodes, in sequential mode
and in parallel mode (results collected in an arbitrary completion
order). -/
theorem batch_isolation (nodes order : List String) (k : String) (beh : String → NodeEnv)
    (st stPar : ActivePods) (hnd : nodes.Nodup) (hk : k ∈ nodes)
    (hperm : order.Perm nodes)
    (hkfail : (beh k).cout ≠ .ready)
    (hok : ∀ n ∈ nodes, n ≠ k → collectResult (beh n) = true) :
    ((fleet_sequential (collectTask false beh) nodes st).1.length = nodes.length ∧
      (fleet_sequential (collectTask false beh) nodes st).1.filter (fun e => !e.2)
        = [(k, false)] ∧
      ∀ e ∈ (fleet_sequential (collectTask false beh) nodes st).1, e.1 ≠ k → e.2 = true) ∧
    ((fleet_parallel (collectTask false beh) order stPar).1.length = nodes.length ∧
      (fleet_parallel (collectTask false beh) order stPar).1.filter (fun e => !e.2)
        = [(k, false)] ∧
      ∀ e ∈ (fleet_parallel (collectTask false beh) order stPar).1, e.1 ≠ k → e.2 = true) := by
  have hf : ∀ n s, (collectTask false beh n s).1 = collectResult (beh n) :=
    fun n s => run_retis_result_eq s n (beh n)
  have hkf : collectResult (beh k) = false := collectResult_of_provision_fail _ hkfail
  have hseq := fleet_sequential_entries (collectTask false beh)
    (fun n => collectResult (beh n)) hf nodes st
  have hpar := fleet_sequential_entries (collectTask false beh)
    (fun n => collectResult (beh n)) hf order stPar
  have hndo : order.Nodup := (hperm.nodup_iff).mpr hnd
  have hko : k ∈ order := (hperm.mem_iff).mpr hk
  have hoko : ∀ n ∈ order, n ≠ k → collectResult (beh n) = true :=
    fun n hn hne => hok n (hperm.subset hn) hne
  refine ⟨⟨?_, ?_, ?_⟩, ⟨?_, ?_, ?_⟩⟩
  · rw [hseq, List.length_map]
  · rw [hseq]
    exact filter_failed_map_eq nodes k _ hnd hk hkf hok
  · intro e he
    rw [hseq] at he
    obtain ⟨n, hn, rfl⟩ := List.mem_map.mp he
    exact fun hne => hok n hn hne
  · rw [fleet_parallel, hpar, List.length_map, hperm.length_eq]
  · rw [fleet_parallel, hpar]
    exact filter_failed_map_eq order k _ hndo hko hkf hoko
  · intro e he
    rw [fleet_parallel, hpar] at he
    obtain ⟨n, hn, rfl⟩ := List.mem_map.mp he
    exact fun hne => hoko n hn hne

/-- Witness for C6 at a concrete three-node fleet where node `b` fails
provisioning, run sequentially in selection order and in a permuted
completion order. -/
theorem batch_isolation_witness :
    ((fleet_sequential
        (collectTask false (fun n =>
          if n = "b" then ⟨0, .timedOut, .ok, .ok, .output "", .output ""⟩
          else ⟨0, .ready, .ok, .ok, .output "started", .output "Active: active (running)"⟩))
        ["a", "b", "c"] []).1.length = (["a", "b", "c"] : List String).length ∧
      (fleet_sequential
        (collectTask false (fun n =>
          if n = "b" then ⟨0, .timedOut, .ok, .ok, .output "", .output ""⟩
          else ⟨0, .ready, .ok, .ok, .output "started", .output "Active: active (running)"⟩))
        ["a", "b", "c"] []).1.filter (fun e => !e.2) = [("b", false)] ∧
      ∀ e ∈ (fleet_sequential
        (collectTask false (fun n =>
          if n = "b" then ⟨0, .timedOut, .ok, .ok, .output "", .output ""⟩
          else ⟨0, .ready, .ok, .ok, .output "started", .output "Active: active (running)"⟩))
        ["a", "b", "c"] []).1, e.1 ≠ "b" → e.2 = true) ∧
    ((fleet_parallel
        (collectTask false (fun n =>
          if n = "b" then ⟨0, .timedOut, .ok, .ok, .output "", .output ""⟩
          else ⟨0, .ready, .ok, .ok, .output "started", .output "Active: active (running)"⟩))
        ["c", "a", "b"] []).1.length = (["a", "b", "c"] : List String).length ∧
      (fleet_parallel
        (collectTask false (fun n =>
          if n = "b" then ⟨0, .timedOut, .ok, .ok, .output "", .output ""⟩
          else ⟨0, .ready, .ok, .ok, .output "started", .output "Active: active (running)"⟩))
        ["c", "a", "b"] []).1.filter (fun e => !e.2) = [("b", false)] ∧
      ∀ e ∈ (fleet_parallel
        (collectTask false (fun n =>
          if n = "b" then ⟨0, .timedOut, .ok, .ok, .output "", .output ""⟩
          else ⟨0, .ready, .ok, .ok, .output "started", .output "Active: active (running)"⟩))
        ["c", "a", "b"] []).1, e.1 ≠ "b" → e.2 = true) :=
  batch_isolation ["a", "b", "c"] ["c", "a", "b"] "b"
    (fun n =>
      if n = "b" then ⟨0, .timedOut, .ok, .ok, .output "", .output ""⟩
      else ⟨0, .ready, .ok, .ok, .output "started", .output "Active: active (running)"⟩)
    [] [] (by decide) (by decide) (by decide) (by decide) (by decide)

/-! ### C7: dry-run purity -/

theorem fleet_sequential_dry (f : String → ActivePods → Bool × ActivePods × List Ev)
    (hf : ∀ n st, f n st = (true, st, [])) :
    ∀ (order : List String) (st : ActivePods),
      fleet_sequential f order st = (order.map (fun n => (n, true)), st, []) := by
  intro order
  induction order with
  | nil => intro st; rfl
  | cons n rest ih => intro st; simp [fleet_sequential, hf, ih]

theorem fleet_sequential_length (f : String → ActivePods → Bool × ActivePods × List Ev) :
    ∀ (order : List String) (st : ActivePods),
      (fleet_sequential f order st).1.length = order.length := by
  intro order
  induction order with
  | nil => intro st; rfl
  | cons n rest ih => intro st; simp [fleet_sequential, ih]

/-- C7: every per-node operation run in dry-run mode returns a synthetic
success before acquiring any debug pod, making zero calls to the control
plane's mutating capabilities (the whole dry fleet trace is empty), and
the dry-run summary has the same node count as a run with any dry-run
flag and any environment behavior would have. -/
theorem dry_run_purity (st : ActivePods) (fs : PodFS) (node : String)
    (envN : NodeEnv) (envS : SetupEnv) (envD : DownloadEnv)
    (nodes : List String) (behN : String → NodeEnv) (behD : String → DownloadEnv)
    (dr : Bool) :
    stop_retis_on_node true st node envN = (true, st, []) ∧
    reset_failed_retis_on_node true st node envN = (true, st, []) ∧
    run_retis_on_node true st node envN = (true, st, []) ∧
    setup_script_on_node true st fs node envS = (true, st, fs, []) ∧
    download_results_from_node true st node envD = (true, st, none, []) ∧
    countEv isMutatingApiCall (fleet_sequential (stopTask true behN) nodes st).2.2 = 0 ∧
    countEv isMutatingApiCall (fleet_sequential (resetTask true behN) nodes st).2.2 = 0 ∧
    countEv isMutatingApiCall (fleet_sequential (collectTask true behN) nodes st).2.2 = 0 ∧
    countEv isMutatingApiCall (fleet_sequential (downloadTask true behD) nodes st).2.2 = 0 ∧
    (fleet_sequential (stopTask true behN) nodes st).1.length
      = (fleet_sequential (stopTask dr behN) nodes st).1.length ∧
    (fleet_sequential (resetTask true behN) nodes st).1.length
      = (fleet_sequential (resetTask dr behN) nodes st).1.length ∧
    (fleet_sequential (collectTask true behN) nodes st).1.length
      = (fleet_sequential (collectTask dr behN) nodes st).1.length ∧
    (fleet_sequential (downloadTask true behD) nodes st).1.length
      = (fleet_sequential (downloadTask dr behD) nodes st).1.length := by
  refine ⟨rfl, rfl, rfl, rfl, rfl, ?_, ?_, ?_, ?_, ?_, ?_, ?_, ?_⟩
  · rw [fleet_sequential_dry (stopTask true behN) (fun n s => rfl) nodes st]; rfl
  · rw [fleet_sequential_dry (resetTask true behN) (fun n s => rfl) nodes st]; rfl
  · rw [fleet_sequential_dry (collectTask true behN) (fun n s => rfl) nodes st]; rfl
  · rw [fleet_sequential_dry (downloadTask true behD) (fun n s => rfl) nodes st]; rfl
  · rw [fleet_sequential_length, fleet_sequential_length]
  · rw [fleet_sequential_length, fleet_sequential_length]
  · rw [fleet_sequential_length, fleet_sequential_length]
  · rw [fleet_sequential_length, fleet_sequential_length]

/-! ### C9: worker-pool sizing -/

/-- C9: for every non-empty selected node list, parallel mode uses a
worker pool of size `min(node_count, 5)` in every operation —
start-collection, stop, reset-failed and download. -/
theorem pool_size_contract (nodes : List String) (h : nodes ≠ []) (op : FleetOp) :
    opPoolWorkers op nodes = min nodes.length concurrencyCap ∧
    0 < opPoolWorkers op nodes ∧
    opPoolWorkers op nodes ≤ concurrencyCap ∧
    (5 ≤ nodes.length → opPoolWorkers op nodes = 5) ∧
    (nodes.length ≤ 5 → opPoolWorkers op nodes = nodes.length) := by
  have hlen : 0 < nodes.length := List.length_pos.mpr h
  cases op <;>
    simp only [opPoolWorkers, stopPoolWorkers, resetPoolWorkers, downloadPoolWorkers,
      collectionPoolWorkers, concurrencyCap, true_and] <;>
    omega

/-- Witness for C9 at a concrete single-node list and the stop
operation. -/
theorem pool_size_contract_witness :
    opPoolWorkers .stop ["a"] = min (["a"] : List String).length concurrencyCap ∧
    0 < opPoolWorkers .stop ["a"] ∧
    opPoolWorkers .stop ["a"] ≤ concurrencyCap ∧
    (5 ≤ (["a"] : List String).length → opPoolWorkers .stop ["a"] = 5) ∧
    ((["a"] : List String).length ≤ 5 → opPoolWorkers .stop ["a"] = (["a"] : List String).length) :=
  pool_size_contract ["a"] (by decide) .stop

/-! ### C10: transfer raise/catch discipline -/

theorem copy_to_isOk (st : ActivePods) (fs : PodFS) (node : String)
    (content? : Option (List Nat)) (rp : String) (uh : Bool)
    (chM chW : ChannelBehavior) (pod : String) (h : podsGet st node = some pod) :
    ∃ b, (copy_file_to_pod st fs node content? rp uh chM chW).1 = Except.ok b := by
  cases content? with
  | none => exact ⟨false, by simp [copy_file_to_pod, h]⟩
  | some c =>
    cases chW with
    | raiseExc m => exact ⟨false, by simp [copy_file_to_pod, h, execute_command, chToExec]⟩
    | deliver => exact ⟨true, by simp [copy_file_to_pod, h, execute_command, chToExec]⟩
    | deliverRaw s => exact ⟨true, by simp [copy_file_to_pod, h, execute_command, chToExec]⟩

theorem copy_from_isOk (st : ActivePods) (fs : PodFS) (node : String)
    (rp : String) (uh : Bool) (chR : ChannelBehavior) (lwOk : Bool)
    (pod : String) (h : podsGet st node = some pod) :
    ∃ b, (copy_file_from_pod st fs node rp uh chR lwOk).1 = Except.ok b := by
  cases chR with
  | raiseExc m => exact ⟨false, by simp [copy_file_from_pod, h, execute_command, chToExec]⟩
  | deliver =>
    rcases hdec : b64decode (pyStrip (remoteReadB64 fs (if uh then "/host" ++ rp else rp)))
      with _ | bs
    · exact ⟨false, by simp [copy_file_from_pod, h, execute_command, chToExec, hdec]⟩
    · cases lwOk
      · exact ⟨false, by simp [copy_file_from_pod, h, execute_command, chToExec, hdec]⟩
      · exact ⟨true, by simp [copy_file_from_pod, h, execute_command, chToExec, hdec]⟩
  | deliverRaw s =>
    rcases hdec : b64decode (pyStrip s) with _ | bs
    · exact ⟨false, by simp [copy_file_from_pod, h, execute_command, chToExec, hdec]⟩
    · cases lwOk
      · exact ⟨false, by simp [copy_file_from_pod, h, execute_command, chToExec, hdec]⟩
      · exact ⟨true, by simp [copy_file_from_pod, h, execute_command, chToExec, hdec]⟩

/-- C10: the transfer operations raise exactly when no active debug pod
exists for the named node (the registry lookup precedes their `try`
blocks); with an active pod they never raise, and every failure —
unreadable local source, remote command failure, base64 decode failure,
failed local write — is returned as `false`. -/
theorem copy_error_contract (st : ActivePods) (fs : PodFS) (node : String)
    (content? : Option (List Nat)) (rp : String) (uh : Bool)
    (chM chW chR : ChannelBehavior) (lwOk : Bool) :
    (podsGet st node = none →
      (copy_file_to_pod st fs node content? rp uh chM chW).1 = Except.error (noPodMsg node) ∧
      (copy_file_from_pod st fs node rp uh chR lwOk).1 = Except.error (noPodMsg node)) ∧
    (∀ pod, podsGet st node = some pod →
      (∃ b, (copy_file_to_pod st fs node content? rp uh chM chW).1 = Except.ok b) ∧
      (∃ b, (copy_file_from_pod st fs node rp uh chR lwOk).1 = Except.ok b) ∧
      (content? = none →
        (copy_file_to_pod st fs node content? rp uh chM chW).1 = Except.ok false) ∧
      (∀ m, chW = .raiseExc m →
        (copy_file_to_pod st fs node content? rp uh chM chW).1 = Except.ok false) ∧
      (∀ m, chR = .raiseExc m →
        (copy_file_from_pod st fs node rp uh chR lwOk).1 = Except.ok false) ∧
      (∀ s, chR = .deliverRaw s → b64decode (pyStrip s) = none →
        (copy_file_from_pod st fs node rp uh chR lwOk).1 = Except.ok false) ∧
      (lwOk = false →
        (copy_file_from_pod st fs node rp uh chR lwOk).1 = Except.ok false)) := by
  refine ⟨fun h => ⟨by simp [copy_file_to_pod, h], by simp [copy_file_from_pod, h]⟩,
    fun pod h => ⟨copy_to_isOk st fs node content? rp uh chM chW pod h,
      copy_from_isOk st fs node rp uh chR lwOk pod h, ?_, ?_, ?_, ?_, ?_⟩⟩
  · rintro rfl
    simp [copy_file_to_pod, h]
  · rintro m rfl
    cases content? <;> simp [copy_file_to_pod, h, execute_command, chToExec]
  · rintro m rfl
    simp [copy_file_from_pod, h, execute_command, chToExec]
  · rintro s rfl hdec
    simp [copy_file_from_pod, h, execute_command, chToExec, hdec]
  · rintro rfl
    cases chR with
    | raiseExc m => simp [copy_file_from_pod, h, execute_command, chToExec]
    | deliver =>
      rcases hdec : b64decode (pyStrip (remoteReadB64 fs (if uh then "/host" ++ rp else rp)))
        with _ | bs <;>
        simp [copy_file_from_pod, h, execute_command, chToExec, hdec]
    | deliverRaw s =>
      rcases hdec : b64decode (pyStrip s) with _ | bs <;>
        simp [copy_file_from_pod, h, execute_command, chToExec, hdec]

/-- Witness for C10 at concrete inputs: a missing pod raises for the push
side, and a corrupted channel output whose stripped text fails base64
decoding is returned as `false` on the pull side. -/
theorem copy_error_contract_witness :
    (copy_file_to_pod [] [] "node-d" (some []) "/tmp/y" true .deliver .deliver).1
      = Except.error (noPodMsg "node-d") ∧
    (copy_file_from_pod [("node-d", "pod-d")] [] "node-d" "/tmp/y" true
        (.deliverRaw "A") true).1 = Except.ok false := by
  constructor
  · exact ((copy_error_contract [] [] "node-d" (some []) "/tmp/y" true
      .deliver .deliver .deliver true).1 rfl).1
  · exact ((copy_error_contract [("node-d", "pod-d")] [] "node-d" (some []) "/tmp/y" true
      .deliver .deliver (.deliverRaw "A") true).2 "pod-d" (by decide)).2.2.2.2.2.1
      "A" rfl (by decide)

end Arc
